import Mathlib

/-
Verification of the nested-document projection and parent/child query
construction logic of the django-solr DSL layer
(src/django_solr/dsl/backend.py).

The embedding models Solr/JSON runtime values as an inductive `Value`
type, Python dictionaries as association lists with overwrite-on-insert
semantics (matching CPython dict assignment: an existing key keeps its
position, a new key is appended), Python truthiness explicitly, and
Python exceptions as an `Except` error channel distinguishing
`ValueError` from `AttributeError`.  The mutable result object
(`SolrSearchResult`, whose `to_dict` memoizes into `self._dict`) is
modelled by explicit state passing: `to_dict` returns the result
together with the updated result object.
-/

namespace DjangoSolr

/-- Runtime values as they appear in a Solr response row: null, booleans,
integers, strings, JSON arrays and JSON objects.  Objects are ordered
association lists, as CPython dictionaries are. -/
inductive Value where
  | vnull : Value
  | vbool : Bool → Value
  | vint : Int → Value
  | vstr : String → Value
  | vlist : List Value → Value
  | vdict : List (String × Value) → Value

/-- Python truthiness of a value (`if value:`): null, False, 0, the empty
string, the empty list and the empty dict are falsy. -/
def Value.truthy : Value → Bool
  | .vnull => false
  | .vbool b => b
  | .vint n => n != 0
  | .vstr s => s ≠ ""
  | .vlist es => !es.isEmpty
  | .vdict es => !es.isEmpty

/-- Whether a value is Python None (`value is None`). -/
def Value.isNull : Value → Bool
  | .vnull => true
  | _ => false

/-- Whether a value is a Python dict (`isinstance(value, dict)`). -/
def Value.isDict : Value → Bool
  | .vdict _ => true
  | _ => false

/-- Whether a value is a Python list (`isinstance(value, list)`). -/
def Value.isList : Value → Bool
  | .vlist _ => true
  | _ => false

/-- Python exceptions raised by the projection code: `ValueError`
(raised explicitly by `_nested_to_dict`) and `AttributeError` (raised by
attribute access such as `.get` on a non-dict object). -/
inductive PyError where
  | valueError : String → PyError
  | attributeError : String → PyError

/-- Lookup in an ordered dict: `some` exactly when the key is present.
Keys are unique in every dict the model builds, matching CPython. -/
def lookupVal : List (String × Value) → String → Option Value
  | [], _ => none
  | e :: rest, k => if e.1 = k then some e.2 else lookupVal rest k

/-- Python `d.get(k)` on a dict: the stored value, or None when absent. -/
def dictGet (entries : List (String × Value)) (k : String) : Value :=
  (lookupVal entries k).getD .vnull

/-- Python `d[k] = v` on a dict: overwrite the value of an existing key in
place (keys are unique, so replacing the first occurrence suffices),
otherwise append the new binding at the end, matching CPython insertion
order semantics. -/
def dictInsert : List (String × Value) → String → Value → List (String × Value)
  | [], k, v => [(k, v)]
  | e :: rest, k, v => if e.1 = k then (k, v) :: rest else e :: dictInsert rest k v

/-- A haystack field descriptor as consumed by `SolrSearchResult`:
whether it is a `NestedField`, whether it is multi-valued, its declared
default (`has_default()` / `default`), its `convert` function, its child
descriptors (`properties`, nonempty only for nested fields), and, for a
field whose `model_field` is a primary key, the name of that model field
(used by `_single_nested_to_dict` to duplicate the converted value). -/
inductive FieldSpec where
  | mk : (isNested : Bool) → (isMultivalued : Bool) → (default? : Option Value) →
      (convert : Value → Value) → (properties : List (String × FieldSpec)) →
      (pkDup : Option String) → FieldSpec

def FieldSpec.isNested : FieldSpec → Bool
  | .mk b _ _ _ _ _ => b

def FieldSpec.isMultivalued : FieldSpec → Bool
  | .mk _ b _ _ _ _ => b

def FieldSpec.default? : FieldSpec → Option Value
  | .mk _ _ d _ _ _ => d

def FieldSpec.convert : FieldSpec → (Value → Value)
  | .mk _ _ _ c _ _ => c

def FieldSpec.properties : FieldSpec → List (String × FieldSpec)
  | .mk _ _ _ _ p _ => p

def FieldSpec.pkDup : FieldSpec → Option String
  | .mk _ _ _ _ _ p => p

theorem FieldSpec.sizeOf_properties_lt (f : FieldSpec) :
    sizeOf f.properties < sizeOf f := by
  cases f with
  | mk a b c conv props pk => simp [FieldSpec.properties]; omega

/-- SolrSearchResult.is_need_dump_field: a field is dumped unless the
allowlist `self._fields` is truthy (present and nonempty) and does not
contain the field name.  Python truthiness makes an empty list behave
exactly like an absent allowlist. -/
def is_need_dump_field (allow : Option (List String)) (field_name : String) : Bool :=
  match allow with
  | some l => if !l.isEmpty then l.contains field_name else true
  | none => true

/-- Message of the ValueError raised by `_nested_to_dict`. -/
def nestedErrorMsg : String := "Nested field value must be dict or list of dict type"

mutual

/-- SolrSearchResult._nested_to_dict: project the raw value of a nested
field.  None yields the declared default (or None); a list is delegated
to `_multiple_nested_to_dict`; a dict is delegated to
`_single_nested_to_dict` and wrapped into a one-element list when the
field is multi-valued; anything else raises ValueError. -/
def nested_to_dict (field : FieldSpec) (allow : Option (List String))
    (fields_only : Bool) (nested : Value) : Except PyError Value :=
  match nested with
  | .vnull =>
    match field.default? with
    | some d => .ok d
    | none => .ok .vnull
  | .vlist es =>
    match multiple_nested_to_dict field allow fields_only es with
    | .ok ds => .ok (.vlist ds)
    | .error e => .error e
  | .vdict entries =>
    match single_nested_to_dict field allow fields_only (.vdict entries) with
    | .ok v => if field.isMultivalued then .ok (.vlist [v]) else .ok v
    | .error e => .error e
  | _ => .error (.valueError nestedErrorMsg)
termination_by (4 * sizeOf field + 3, 0)

/-- SolrSearchResult._multiple_nested_to_dict: project every element of a
raw list value with `_single_nested_to_dict`, in order; the first raised
exception aborts and propagates. -/
def multiple_nested_to_dict (field : FieldSpec) (allow : Option (List String))
    (fields_only : Bool) (nested : List Value) : Except PyError (List Value) :=
  match nested with
  | [] => .ok []
  | e :: rest =>
    match single_nested_to_dict field allow fields_only e with
    | .error err => .error err
    | .ok d =>
      match multiple_nested_to_dict field allow fields_only rest with
      | .error err => .error err
      | .ok ds => .ok (d :: ds)
termination_by (4 * sizeOf field + 2, sizeOf nested)

/-- SolrSearchResult._single_nested_to_dict: a falsy raw value yields an
empty dict; a truthy dict is projected through the field child
descriptors; a truthy non-dict raises AttributeError (Python calls
`.get` on it). -/
def single_nested_to_dict (field : FieldSpec) (allow : Option (List String))
    (fields_only : Bool) (nested : Value) : Except PyError Value :=
  if nested.truthy = false then .ok (.vdict [])
  else
    match nested with
    | .vdict entries =>
      match nested_props_loop field.properties entries allow fields_only [] with
      | .ok d => .ok (.vdict d)
      | .error e => .error e
    | _ => .error (.attributeError "object has no attribute get")
termination_by (4 * sizeOf field + 1, 0)
decreasing_by
  have h := FieldSpec.sizeOf_properties_lt field
  apply Prod.Lex.left
  omega

/-- The loop body of `_single_nested_to_dict` over
`field.properties.items()`: skip fields rejected by the allowlist when
`fields_only` is set; recurse for nested child descriptors; otherwise
substitute the declared default for None, convert, and additionally
duplicate the converted value under the model primary-key field name
when the child descriptor carries one. -/
def nested_props_loop (props : List (String × FieldSpec))
    (entries : List (String × Value)) (allow : Option (List String))
    (fields_only : Bool) (acc : List (String × Value)) :
    Except PyError (List (String × Value)) :=
  match props with
  | [] => .ok acc
  | (field_name, fi) :: rest =>
    if fields_only && !(is_need_dump_field allow field_name) then
      nested_props_loop rest entries allow fields_only acc
    else
      let value := dictGet entries field_name
      if fi.isNested then
        match nested_to_dict fi allow fields_only value with
        | .error e => .error e
        | .ok v =>
          nested_props_loop rest entries allow fields_only (dictInsert acc field_name v)
      else
        let value := if value.isNull && fi.default?.isSome
          then fi.default?.getD .vnull else value
        let converted := fi.convert value
        let acc := dictInsert acc field_name converted
        let acc := match fi.pkDup with
          | some pkName => dictInsert acc pkName converted
          | none => acc
        nested_props_loop rest entries allow fields_only acc
termination_by (4 * sizeOf props, 0)

end

/-- Helper for `splitOnChar`: accumulate characters of the current
segment (in reverse) and cut at each separator occurrence. -/
def splitAux (c : Char) : List Char → List Char → List String
  | [], acc => [String.mk acc.reverse]
  | ch :: rest, acc =>
    if ch = c then String.mk acc.reverse :: splitAux c rest []
    else splitAux c rest (ch :: acc)

/-- Python `s.split(c)` for a one-character separator: always returns at
least one segment; the empty string splits to a single empty segment. -/
def splitOnChar (c : Char) (s : String) : List String := splitAux c s.data []

/-- The haystack DOCUMENT_FIELD constant: the synthetic full-text document
field, named text. -/
def DOCUMENT_FIELD : String := "text"

/-- The pieces of `self.model._meta` that `to_dict` and `django_id`
consult: the primary-key attribute name (`pk.attname`) and the type
coercion `pk.to_python`. -/
structure ModelMeta where
  pkAttname : String
  pkToPython : String → Value

/-- A SolrSearchResult row: the composite identifier string `self.id`,
the primary-key string `self.pk`, the raw attribute mapping backing
`getattr` (a missing name yields None through `__getattr__`), the
allowlist `self._fields` set by `post_process_results` (None when never
set), and the memoization cache `self._dict`. -/
structure SolrSearchResult where
  id : String
  pk : String
  attrs : List (String × Value)
  _fields : Option (List String)
  _dict : Option (List (String × Value))

/-- SolrSearchResult.django_id: split the composite identifier on the dot
and coerce the final segment with the primary-key field `to_python`. -/
def django_id (meta : ModelMeta) (row : SolrSearchResult) : Value :=
  meta.pkToPython ((splitOnChar '.' row.id).getLastD "")

/-- The loop of `to_dict` over `index.fields.items()`: skip fields
rejected by the allowlist; skip the document field when its raw value is
falsy; project nested fields through `_nested_to_dict` (an exception
aborts the loop and propagates, leaving the accumulator as built so
far); otherwise substitute the declared default for None and convert.
Returns the accumulated dict together with the exception, if any. -/
def dump_fields_loop (allow : Option (List String)) (fields_inheritance : Bool)
    (attrs : List (String × Value)) (fields : List (String × FieldSpec))
    (acc : List (String × Value)) : List (String × Value) × Option PyError :=
  match fields with
  | [] => (acc, none)
  | (field_name, field) :: rest =>
    if is_need_dump_field allow field_name = false then
      dump_fields_loop allow fields_inheritance attrs rest acc
    else
      let value := dictGet attrs field_name
      if field_name = DOCUMENT_FIELD ∧ value.truthy = false then
        dump_fields_loop allow fields_inheritance attrs rest acc
      else if field.isNested then
        match nested_to_dict field allow fields_inheritance value with
        | .error e => (acc, some e)
        | .ok v =>
          dump_fields_loop allow fields_inheritance attrs rest (dictInsert acc field_name v)
      else
        let value := if value.isNull && field.default?.isSome
          then field.default?.getD .vnull else value
        dump_fields_loop allow fields_inheritance attrs rest
          (dictInsert acc field_name (field.convert value))

/-- SolrSearchResult.to_dict.  The registered unified index for
`self.model` is passed as `index?`: `none` models the `NotHandled`
branch, in which case an empty dict is returned and nothing is cached.
Otherwise, when `self._dict` is None, the dict is seeded with the two
primary-key entries (`pk` and the model primary-key attribute name) and
filled by the field loop; the built dict is stored in `self._dict` even
when the loop raises (CPython mutates the cached dict in place), and the
exception, if any, propagates.  When `self._dict` is already set it is
returned as is.  State passing returns the updated row alongside. -/
def to_dict (meta : ModelMeta) (index? : Option (List (String × FieldSpec)))
    (row : SolrSearchResult) (fields_inheritance : Bool) :
    Except PyError (List (String × Value)) × SolrSearchResult :=
  match row._dict with
  | some d => (.ok d, row)
  | none =>
    match index? with
    | none => (.ok [], row)
    | some fields =>
      let base := dictInsert (dictInsert [] "pk" (.vstr row.pk))
        meta.pkAttname (django_id meta row)
      let r := dump_fields_loop row._fields fields_inheritance row.attrs fields base
      match r.2 with
      | some e => (.error e, { row with _dict := some r.1 })
      | none => (.ok r.1, { row with _dict := some r.1 })

/-- Filter values accepted by the ParentSQ query builder: None (the
existence-only form), a string, or a list of strings. -/
inductive FilterVal where
  | vnone : FilterVal
  | fvstr : String → FilterVal
  | fvlist : List String → FilterVal

/-- Python truthiness of a filter value. -/
def FilterVal.truthy : FilterVal → Bool
  | .vnone => false
  | .fvstr s => s ≠ ""
  | .fvlist ss => !ss.isEmpty

/-- django force_str on a filter value: strings pass through; None and
lists stringify via str(). -/
def force_str : FilterVal → String
  | .fvstr s => s
  | .vnone => "None"
  | .fvlist ss =>
    "[" ++ String.intercalate ", " (ss.map (fun s => "\x27" ++ s ++ "\x27")) ++ "]"

/-- ParentSQ._parse_args on the single child pair: join a list value with
single spaces into one string; split the dotted path, the last segment
being the leaf key and the remaining segments, joined with / and
prefixed with /, the nest path.  Returns (path, key, value). -/
def parse_args (full_path : String) (value : FilterVal) : String × String × FilterVal :=
  let value := match value with
    | .fvlist ss => .fvstr (String.intercalate " " ss)
    | v => v
  let parts := splitOnChar '.' full_path
  let key := parts.getLastD ""
  let path := "/" ++ String.intercalate "/" parts.dropLast
  (path, key, value)

/-- ParentSQ._repr_query_fragment_callback: emit the parent filter clause
selecting root documents, scoped to the nest path (substituting /key
when the parsed path degenerated to the root), conjoined with a
field:(value) term filter when the value is truthy. -/
def repr_query_fragment_callback (path key : String) (field : String)
    (value : FilterVal) : String :=
  let parent := "\x7b!parent which=\"*:* -_nest_path_:*\"\x7d"
  let nest_path := if path = "/" then "/" ++ key else path
  let queries := ["+_nest_path_:\"" ++ nest_path ++ "\""]
  let queries := if value.truthy then
      queries ++ ["+" ++ field ++ ":(" ++ force_str value ++ ")"]
    else queries
  parent ++ " (" ++ String.intercalate " " queries ++ ")"

/-- ParentSQ.as_query_string: parse the dotted path and value of the
single child and render the query fragment, passing the leaf key as the
field name. -/
def as_query_string (full_path : String) (value : FilterVal) : String :=
  match parse_args full_path value with
  | (path, key, v) => repr_query_fragment_callback path key key v

/-
Helper lemmas shared by the claim theorems.
-/

theorem lookupVal_dictInsert_self (d : List (String × Value)) (k : String) (v : Value) :
    lookupVal (dictInsert d k v) k = some v := by
  induction d with
  | nil => simp [dictInsert, lookupVal]
  | cons e rest ih =>
    by_cases he : e.1 = k
    · simp [dictInsert, he, lookupVal]
    · simp [dictInsert, he, lookupVal, ih]

theorem lookupVal_dictInsert_ne (d : List (String × Value)) (k k' : String) (v : Value)
    (h : k' ≠ k) : lookupVal (dictInsert d k v) k' = lookupVal d k' := by
  induction d with
  | nil =>
    have hkk : ¬(k = k') := fun hh => h hh.symm
    simp [dictInsert, lookupVal, hkk]
  | cons e rest ih =>
    by_cases he : e.1 = k
    · have hkk : ¬(k = k') := fun hh => h hh.symm
      have he2 : ¬(e.1 = k') := fun hh => hkk (he.symm.trans hh)
      simp [dictInsert, he, lookupVal, hkk, he2]
    · by_cases he2 : e.1 = k'
      · simp [dictInsert, he, lookupVal, he2, h]
      · simp [dictInsert, he, lookupVal, he2, ih]

theorem dump_fields_loop_lookup_of_not_mem (allow : Option (List String)) (fi : Bool)
    (attrs : List (String × Value)) (k : String) :
    ∀ (fields : List (String × FieldSpec)) (acc : List (String × Value)),
    k ∉ fields.map Prod.fst →
    lookupVal (dump_fields_loop allow fi attrs fields acc).1 k = lookupVal acc k := by
  intro fields
  induction fields with
  | nil =>
    intro acc _
    simp [dump_fields_loop]
  | cons p rest ih =>
    intro acc h
    obtain ⟨name, f⟩ := p
    simp only [List.map_cons, List.mem_cons] at h
    push_neg at h
    obtain ⟨hk, hrest⟩ := h
    simp only [dump_fields_loop]
    split
    · exact ih acc hrest
    · split
      · exact ih acc hrest
      · split
        · cases hnd : nested_to_dict f allow fi (dictGet attrs name) with
          | error e => simp [hnd, lookupVal]
          | ok v =>
            simp only [hnd]
            rw [ih _ hrest, lookupVal_dictInsert_ne _ _ _ _ hk]
        · rw [ih _ hrest, lookupVal_dictInsert_ne _ _ _ _ hk]

theorem multiple_nested_to_dict_length (f : FieldSpec) (allow : Option (List String))
    (fo : Bool) :
    ∀ (es : List Value) (ds : List Value),
    multiple_nested_to_dict f allow fo es = .ok ds → ds.length = es.length := by
  intro es
  induction es with
  | nil =>
    intro ds h
    simp only [multiple_nested_to_dict] at h
    cases h
    rfl
  | cons e rest ih =>
    intro ds h
    simp only [multiple_nested_to_dict] at h
    cases h1 : single_nested_to_dict f allow fo e with
    | error err => rw [h1] at h; cases h
    | ok d =>
      rw [h1] at h
      cases h2 : multiple_nested_to_dict f allow fo rest with
      | error err => rw [h2] at h; cases h
      | ok ds' =>
        rw [h2] at h
        cases h
        simp [ih ds' h2]

theorem to_dict_fresh_ok (meta : ModelMeta) (fields : List (String × FieldSpec))
    (row : SolrSearchResult) (fi : Bool) (d : List (String × Value))
    (s1 : SolrSearchResult)
    (hfresh : row._dict = none)
    (h : to_dict meta (some fields) row fi = (.ok d, s1)) :
    dump_fields_loop row._fields fi row.attrs fields
      (dictInsert (dictInsert [] "pk" (.vstr row.pk)) meta.pkAttname
        (django_id meta row)) = (d, none) ∧
    s1 = { row with _dict := some d } := by
  simp only [to_dict, hfresh] at h
  cases hL2 : (dump_fields_loop row._fields fi row.attrs fields
      (dictInsert (dictInsert [] "pk" (.vstr row.pk)) meta.pkAttname
        (django_id meta row))).2 with
  | some e =>
    rw [hL2] at h
    simp at h
  | none =>
    rw [hL2] at h
    simp only [Prod.mk.injEq, Except.ok.injEq] at h
    obtain ⟨h1, h2⟩ := h
    subst h1
    exact ⟨Prod.ext rfl hL2, h2.symm⟩

theorem dump_fields_loop_default (allow : Option (List String)) (fi : Bool)
    (attrs : List (String × Value)) (name : String) (f : FieldSpec) (D : Value)
    (hneed : is_need_dump_field allow name = true) (hdoc : name ≠ DOCUMENT_FIELD)
    (hnull : dictGet attrs name = .vnull) (hdef : f.default? = some D) :
    ∀ (fields : List (String × FieldSpec)) (acc d : List (String × Value)),
    (fields.map Prod.fst).Nodup → (name, f) ∈ fields →
    dump_fields_loop allow fi attrs fields acc = (d, none) →
    lookupVal d name = some (if f.isNested then D else f.convert D) := by
  intro fields
  induction fields with
  | nil =>
    intro acc d _ hmem
    cases hmem
  | cons p rest ih =>
    intro acc d hnd hmem hloop
    obtain ⟨pn, pf⟩ := p
    rcases List.mem_cons.mp hmem with heq | hmem'
    · injection heq with h1 h2
      subst h1
      subst h2
      simp only [dump_fields_loop, hneed] at hloop
      rw [if_neg (by simp)] at hloop
      rw [hnull] at hloop
      rw [if_neg (by simp [hdoc])] at hloop
      have hnotrest : name ∉ rest.map Prod.fst := by
        simp only [List.map_cons] at hnd
        exact (List.nodup_cons.mp hnd).1
      cases hfn : f.isNested with
      | true =>
        have hnv : nested_to_dict f allow fi Value.vnull = .ok D := by
          simp [nested_to_dict, hdef]
        simp only [hfn, if_true, hnv] at hloop
        have hd1 : d = (dump_fields_loop allow fi attrs rest (dictInsert acc name D)).1 := by
          rw [hloop]
        rw [hd1, dump_fields_loop_lookup_of_not_mem allow fi attrs name rest _ hnotrest,
          lookupVal_dictInsert_self]
        simp [hfn]
      | false =>
        simp [hfn, Value.isNull, hdef] at hloop
        have hd1 : d =
            (dump_fields_loop allow fi attrs rest (dictInsert acc name (f.convert D))).1 := by
          rw [hloop]
        rw [hd1, dump_fields_loop_lookup_of_not_mem allow fi attrs name rest _ hnotrest,
          lookupVal_dictInsert_self]
        simp [hfn]
    · have hndrest : (rest.map Prod.fst).Nodup := by
        simp only [List.map_cons] at hnd
        exact (List.nodup_cons.mp hnd).2
      simp only [dump_fields_loop] at hloop
      split at hloop
      · exact ih acc d hndrest hmem' hloop
      · split at hloop
        · exact ih acc d hndrest hmem' hloop
        · split at hloop
          · cases hnd2 : nested_to_dict pf allow fi (dictGet attrs pn) with
            | error e =>
              rw [hnd2] at hloop
              cases hloop
            | ok v =>
              rw [hnd2] at hloop
              exact ih _ d hndrest hmem' hloop
          · exact ih _ d hndrest hmem' hloop

/-
Concrete fixtures used by counterexamples and witnesses.
-/

/-- A concrete model meta: primary-key attribute named id, coerced by
wrapping the split segment as a string. -/
def exMeta : ModelMeta := ⟨"id", fun s => .vstr s⟩

/-- A flat field descriptor: not nested, single-valued, no default,
identity conversion. -/
def exFlat : FieldSpec := .mk false false none (fun v => v) [] none

/-- A flat field descriptor declaring a default value. -/
def exFlatDef : FieldSpec := .mk false false (some (.vstr "fallback")) (fun v => v) [] none

/-- A multi-valued nested field descriptor with one flat child y. -/
def exMulti : FieldSpec := .mk true true none (fun v => v) [("y", exFlat)] none

/-- A row carrying an allowlist that is present but empty. -/
def exRowEmptyAllow : SolrSearchResult :=
  ⟨"app.m.7", "7", [("x", .vstr "v")], some [], none⟩

/-- A fresh row with no allowlist and an empty cache. -/
def exRowFresh : SolrSearchResult :=
  ⟨"app.m.7", "7", [("x", .vstr "v")], none, none⟩

/-- A fresh row with no raw attributes at all. -/
def exRowBare : SolrSearchResult := ⟨"app.m.3", "3", [], none, none⟩

/-- The registered index used by several witnesses: one flat field x. -/
def exIndex : List (String × FieldSpec) := [("x", exFlat)]

/-- The dict `to_dict` builds for `exRowFresh` over `exIndex`. -/
def exDict : List (String × Value) :=
  [("pk", .vstr "7"), ("id", .vstr "7"), ("x", .vstr "v")]

/-- The row `exRowFresh` after its cache has been filled. -/
def exRowCached : SolrSearchResult := { exRowFresh with _dict := some exDict }

/-
Claim theorems.
-/

/-- C1: counterexample.  The claim says that with an allowlist that is
given but empty, the output contains none of the declared fields.  On
the code, the empty allowlist is falsy, `is_need_dump_field` returns
True, and the declared field x is still emitted. -/
theorem C1_counterexample :
    exRowEmptyAllow._fields = some [] ∧
    (to_dict exMeta (some [("x", exFlat)]) exRowEmptyAllow false).1 =
      .ok [("pk", .vstr "7"), ("id", .vstr "7"), ("x", .vstr "v")] :=
  ⟨rfl, rfl⟩

/-- C1 (amended): a declared field is skipped if and only if the
allowlist is given, nonempty, and does not contain the field name; an
empty allowlist behaves exactly like an absent one. -/
theorem C1_allowlist_skip_iff (allow : Option (List String)) (name : String) :
    is_need_dump_field allow name = false ↔
      ∃ l, allow = some l ∧ l.isEmpty = false ∧ l.contains name = false := by
  cases allow with
  | none => simp [is_need_dump_field]
  | some l =>
    cases hl : l.isEmpty with
    | true =>
      have he : l = [] := by
        cases l with
        | nil => rfl
        | cons a as => simp [List.isEmpty] at hl
      subst he
      simp [is_need_dump_field]
    | false =>
      have hne : l ≠ [] := by
        intro he
        subst he
        simp at hl
      simp [is_need_dump_field, hl, hne]

/-- C2: counterexample.  For a row whose model has no registered index
(the NotHandled branch), `to_dict` returns an empty dict: the two
primary-key entries are not present, refuting the claim for every row. -/
theorem C2_counterexample :
    to_dict exMeta none exRowFresh false = (.ok [], exRowFresh) ∧
    lookupVal [] "pk" = none :=
  ⟨rfl, rfl⟩

/-- C2 (amended): for every fresh row whose model index is registered,
whose primary-key attribute name is not the literal pk, and whose
declared fields shadow neither pk nor that attribute name, the projected
dict maps pk to the row primary-key string and the attribute name to the
coercion of the final dot-separated segment of the composite id. -/
theorem C2_pk_keys (meta : ModelMeta) (fields : List (String × FieldSpec))
    (row : SolrSearchResult) (fi : Bool) (d : List (String × Value))
    (s1 : SolrSearchResult)
    (hfresh : row._dict = none)
    (hattname : meta.pkAttname ≠ "pk")
    (hpk : "pk" ∉ fields.map Prod.fst)
    (hatt : meta.pkAttname ∉ fields.map Prod.fst)
    (h : to_dict meta (some fields) row fi = (.ok d, s1)) :
    lookupVal d "pk" = some (.vstr row.pk) ∧
    lookupVal d meta.pkAttname =
      some (meta.pkToPython ((splitOnChar '.' row.id).getLastD "")) := by
  obtain ⟨hloop, _⟩ := to_dict_fresh_ok meta fields row fi d s1 hfresh h
  have hd : d = (dump_fields_loop row._fields fi row.attrs fields
      (dictInsert (dictInsert [] "pk" (.vstr row.pk)) meta.pkAttname
        (django_id meta row))).1 := by
    rw [hloop]
  constructor
  · rw [hd, dump_fields_loop_lookup_of_not_mem _ _ _ _ _ _ hpk,
      lookupVal_dictInsert_ne _ _ _ _ (Ne.symm hattname), lookupVal_dictInsert_self]
  · rw [hd, dump_fields_loop_lookup_of_not_mem _ _ _ _ _ _ hatt,
      lookupVal_dictInsert_self, django_id]

/-- C2: witness for the amended theorem at a concrete registered row. -/
theorem C2_witness :
    lookupVal exDict "pk" = some (.vstr "7") ∧
    lookupVal exDict "id" = some (.vstr "7") := by
  have h := C2_pk_keys exMeta exIndex exRowFresh false exDict exRowCached rfl
    (by decide) (by decide) (by decide) rfl
  exact ⟨h.1, h.2⟩

/-- C3: counterexample.  For a row whose model has no registered index,
`to_dict` returns a dict but caches nothing: the cache stays None, so
the second call cannot return a memoized cached instance; it rebuilds a
fresh (deep-equal) empty dict each time. -/
theorem C3_counterexample :
    to_dict exMeta none exRowFresh false = (.ok [], exRowFresh) ∧
    (to_dict exMeta none exRowFresh false).2._dict = none :=
  ⟨rfl, rfl⟩

/-- C3 (amended): for every fresh row whose model index is registered
and whose projection succeeds, the only state change is that the built
dict is stored in the cache, and a second call with any
fields_inheritance value returns exactly the cached dict and leaves the
state untouched. -/
theorem C3_memoized (meta : ModelMeta) (fields : List (String × FieldSpec))
    (row : SolrSearchResult) (fi fi2 : Bool) (d : List (String × Value))
    (s1 : SolrSearchResult)
    (hfresh : row._dict = none)
    (h : to_dict meta (some fields) row fi = (.ok d, s1)) :
    s1 = { row with _dict := some d } ∧
    to_dict meta (some fields) s1 fi2 = (.ok d, s1) := by
  obtain ⟨_, hs⟩ := to_dict_fresh_ok meta fields row fi d s1 hfresh h
  refine ⟨hs, ?_⟩
  rw [hs]
  simp [to_dict]

/-- C3: witness for the amended theorem at a concrete registered row. -/
theorem C3_witness :
    exRowCached = { exRowFresh with _dict := some exDict } ∧
    to_dict exMeta (some exIndex) exRowCached true = (.ok exDict, exRowCached) :=
  C3_memoized exMeta exIndex exRowFresh false true exDict exRowCached rfl rfl

/-- C4: counterexample.  A list containing a falsy non-mapping (the
empty string) is neither a mapping, nor a list of mappings, nor null,
yet projection does not raise: it returns a list holding an empty dict,
refuting the only-if direction of the claim. -/
theorem C4_counterexample :
    nested_to_dict exMulti none false (.vlist [.vstr ""]) = .ok (.vlist [.vdict []]) ∧
    Value.isDict (.vstr "") = false := by
  refine ⟨?_, rfl⟩
  simp [nested_to_dict, multiple_nested_to_dict, single_nested_to_dict, Value.truthy]

/-- C4 (amended): the explicit ValueError is raised exactly at the top
level, when the raw value is neither a dict, nor a list of any shape,
nor null; list elements are handed to single projection unchecked. -/
theorem C4_value_error (f : FieldSpec) (allow : Option (List String)) (fo : Bool)
    (v : Value)
    (hd : v.isDict = false) (hl : v.isList = false) (hn : v ≠ .vnull) :
    nested_to_dict f allow fo v = .error (.valueError nestedErrorMsg) := by
  cases v with
  | vnull => exact absurd rfl hn
  | vdict entries => simp [Value.isDict] at hd
  | vlist es => simp [Value.isList] at hl
  | vbool b => simp [nested_to_dict]
  | vint n => simp [nested_to_dict]
  | vstr s => simp [nested_to_dict]

/-- C4: witness for the amended theorem at a concrete non-dict,
non-list, non-null value. -/
theorem C4_witness :
    nested_to_dict exMulti none false (.vint 5) = .error (.valueError nestedErrorMsg) :=
  C4_value_error exMulti none false (.vint 5) rfl rfl (fun h => Value.noConfusion h)

/-- C5: nested cardinality.  For a multi-valued nested descriptor, a
single mapping projects to a one-element list holding the projected
dict; a list whose elements all project yields a list of the same
length; null yields the declared default, or null without one. -/
theorem C5_cardinality (f : FieldSpec) (allow : Option (List String)) (fo : Bool)
    (entries : List (String × Value)) (es : List Value) (d : Value)
    (ds : List Value) :
    (f.isMultivalued = true →
      single_nested_to_dict f allow fo (.vdict entries) = .ok d →
      nested_to_dict f allow fo (.vdict entries) = .ok (.vlist [d])) ∧
    (multiple_nested_to_dict f allow fo es = .ok ds →
      nested_to_dict f allow fo (.vlist es) = .ok (.vlist ds) ∧
        ds.length = es.length) ∧
    nested_to_dict f allow fo .vnull = .ok (f.default?.getD .vnull) := by
  refine ⟨?_, ?_, ?_⟩
  · intro hm hs
    simp [nested_to_dict, hs, hm]
  · intro hmm
    exact ⟨by simp [nested_to_dict, hmm],
      multiple_nested_to_dict_length f allow fo es ds hmm⟩
  · cases hdef : f.default? <;> simp [nested_to_dict, hdef]

/-- C5: witness at a concrete multi-valued nested descriptor: a single
mapping wraps into a one-element list, a two-element list of mappings
projects to a two-element list, and null projects to null (no default
declared). -/
theorem C5_witness :
    nested_to_dict exMulti none false (.vdict [("y", .vstr "q")]) =
      .ok (.vlist [.vdict [("y", .vstr "q")]]) ∧
    nested_to_dict exMulti none false (.vlist [.vdict [("y", .vstr "q")], .vdict []]) =
      .ok (.vlist [.vdict [("y", .vstr "q")], .vdict []]) ∧
    nested_to_dict exMulti none false .vnull = .ok .vnull := by
  have h := C5_cardinality exMulti none false [("y", .vstr "q")]
    [.vdict [("y", .vstr "q")], .vdict []] (.vdict [("y", .vstr "q")])
    [.vdict [("y", .vstr "q")], .vdict []]
  refine ⟨h.1 rfl ?_, (h.2.1 ?_).1, h.2.2⟩
  · simp [single_nested_to_dict, Value.truthy, nested_props_loop, exMulti, exFlat,
      FieldSpec.properties, FieldSpec.isNested, FieldSpec.default?, FieldSpec.convert,
      FieldSpec.pkDup, is_need_dump_field, dictGet, lookupVal, dictInsert, Value.isNull]
  · simp [multiple_nested_to_dict, single_nested_to_dict, Value.truthy,
      nested_props_loop, exMulti, exFlat, FieldSpec.properties, FieldSpec.isNested,
      FieldSpec.default?, FieldSpec.convert, FieldSpec.pkDup, is_need_dump_field,
      dictGet, lookupVal, dictInsert, Value.isNull]

/-- C6: counterexample.  The synthetic document field is skipped when
its raw value is falsy before default substitution is reached: with a
declared default and a null raw value, the output contains no entry for
it at all, refuting the claim for the document field. -/
theorem C6_counterexample :
    exFlatDef.default? = some (.vstr "fallback") ∧
    (to_dict exMeta (some [(DOCUMENT_FIELD, exFlatDef)]) exRowBare false).1 =
      .ok [("pk", .vstr "3"), ("id", .vstr "3")] ∧
    lookupVal [("pk", .vstr "3"), ("id", .vstr "3")] DOCUMENT_FIELD = none :=
  ⟨rfl, rfl, rfl⟩

/-- C6 (amended): for every declared field with a default and a null raw
value that passes the allowlist and is not the document field, the
projected output maps the field to the converted default for plain
fields, and to the default itself for nested fields (whose conversion
is the inherited identity in the code). -/
theorem C6_default_value (meta : ModelMeta) (fields : List (String × FieldSpec))
    (row : SolrSearchResult) (fi : Bool) (name : String) (f : FieldSpec) (D : Value)
    (d : List (String × Value)) (s1 : SolrSearchResult)
    (hfresh : row._dict = none)
    (hnodup : (fields.map Prod.fst).Nodup)
    (hmem : (name, f) ∈ fields)
    (hneed : is_need_dump_field row._fields name = true)
    (hdoc : name ≠ DOCUMENT_FIELD)
    (hnull : dictGet row.attrs name = .vnull)
    (hdef : f.default? = some D)
    (h : to_dict meta (some fields) row fi = (.ok d, s1)) :
    lookupVal d name = some (if f.isNested then D else f.convert D) := by
  obtain ⟨hloop, _⟩ := to_dict_fresh_ok meta fields row fi d s1 hfresh h
  exact dump_fields_loop_default row._fields fi row.attrs name f D hneed hdoc hnull
    hdef fields _ d hnodup hmem hloop

/-- C6: witness for the amended theorem at a concrete flat field with a
declared default and a null raw value. -/
theorem C6_witness :
    lookupVal [("pk", .vstr "3"), ("id", .vstr "3"), ("w", .vstr "fallback")] "w" =
      some (.vstr "fallback") :=
  C6_default_value exMeta [("w", exFlatDef)] exRowBare false "w" exFlatDef
    (.vstr "fallback")
    [("pk", .vstr "3"), ("id", .vstr "3"), ("w", .vstr "fallback")]
    { exRowBare with
      _dict := some [("pk", .vstr "3"), ("id", .vstr "3"), ("w", .vstr "fallback")] }
    rfl (by decide) (List.mem_singleton.mpr rfl) rfl (by decide) rfl rfl rfl

/-- C7: for the dotted path a.b.c with value x the parser computes nest
path /a/b and key c, and the emitted fragment contains the nest path
clause and the term filter c:(x), shown by an explicit decomposition of
the full fragment string. -/
theorem C7_fragment :
    parse_args "a.b.c" (.fvstr "x") = ("/a/b", "c", .fvstr "x") ∧
    as_query_string "a.b.c" (.fvstr "x") =
      "\x7b!parent which=\"*:* -_nest_path_:*\"\x7d (+" ++ "_nest_path_:\"/a/b\"" ++
        " +" ++ "c:(x)" ++ ")" :=
  ⟨rfl, rfl⟩

/-- C8: for a path with no segment before the leaf the computed nest
path degenerates to the root and the fragment substitutes /key; with an
absent (None) or empty value no term filter is emitted. -/
theorem C8_root_path :
    parse_args "a" .vnone = ("/", "a", .vnone) ∧
    as_query_string "a" .vnone =
      "\x7b!parent which=\"*:* -_nest_path_:*\"\x7d (+" ++ "_nest_path_:\"/a\"" ++ ")" ∧
    as_query_string "a" (.fvstr "") =
      "\x7b!parent which=\"*:* -_nest_path_:*\"\x7d (+" ++ "_nest_path_:\"/a\"" ++ ")" :=
  ⟨rfl, rfl, rfl⟩

/-- C9: a list filter value is joined with single spaces into one scalar
string before embedding, so the list of x and y yields the term filter
field:(x y) in the emitted fragment. -/
theorem C9_list_join :
    parse_args "a.field" (.fvlist ["x", "y"]) = ("/a", "field", .fvstr "x y") ∧
    as_query_string "a.field" (.fvlist ["x", "y"]) =
      "\x7b!parent which=\"*:* -_nest_path_:*\"\x7d (+" ++ "_nest_path_:\"/a\"" ++
        " +" ++ "field:(x y)" ++ ")" :=
  ⟨rfl, rfl⟩

/-- C10: the memoization cache ignores the fields_inheritance argument:
once a call has returned a dict, a second call with any (possibly
different) fields_inheritance value returns the same dict and leaves the
state unchanged. -/
theorem C10_cache_ignores_inheritance (meta : ModelMeta)
    (index? : Option (List (String × FieldSpec))) (row : SolrSearchResult)
    (fi1 fi2 : Bool) (d : List (String × Value)) (s1 : SolrSearchResult)
    (h : to_dict meta index? row fi1 = (.ok d, s1)) :
    to_dict meta index? s1 fi2 = (.ok d, s1) := by
  cases hc : row._dict with
  | some d0 =>
    simp only [to_dict, hc] at h
    simp only [Prod.mk.injEq, Except.ok.injEq] at h
    obtain ⟨h1, h2⟩ := h
    subst h1
    subst h2
    simp [to_dict, hc]
  | none =>
    cases index? with
    | none =>
      simp only [to_dict, hc] at h
      simp only [Prod.mk.injEq, Except.ok.injEq] at h
      obtain ⟨h1, h2⟩ := h
      subst h1
      subst h2
      simp [to_dict, hc]
    | some fields =>
      obtain ⟨_, hs⟩ := to_dict_fresh_ok meta fields row fi1 d s1 hc h
      rw [hs]
      simp [to_dict]

/-- C10: witness at a concrete row, first call with fields_inheritance
true, second call with false. -/
theorem C10_witness :
    to_dict exMeta (some exIndex) exRowCached false = (.ok exDict, exRowCached) :=
  C10_cache_ignores_inheritance exMeta (some exIndex) exRowFresh true false exDict
    exRowCached rfl

end DjangoSolr

